import Mathlib

/-!
Shallow embedding of the versioned reconciliation and time-travel storage
engine of `ytm` (src/ytm/core/database.py, src/ytm/commands/backup.py,
src/ytm/commands/prune.py, src/ytm/core/browser.py).

Store timestamps (`datetime`, always timezone-naive there) are modelled as
integers (seconds); the retention selector, which can also meet
timezone-aware values, models a datetime as a wall clock plus an optional
utcoffset (`PyDatetime`). SQL tables are lists of row records;
`UPDATE ... WHERE` is a map over the rows, `INSERT` appends,
`SELECT ... fetchone` existence checks are `List.any`. `datetime.now()` is
passed explicitly as a `Time` argument, since it is the only
nondeterministic input of the write operations.
-/

namespace Ytm

abbrev Time := Int

/-- Input model `Playlist` (src/ytm/models/playlist.py). -/
structure Playlist where
  playlist_id : String
  title : String
  description : String := ""
  channel_id : Option String := none
  privacy_status : Option String := none
  item_count : Int := 0
  published_at : Option Time := none
  first_seen_at : Option Time := none
  last_seen_at : Option Time := none
  deleted_from_youtube_at : Option Time := none
  deriving DecidableEq, Repr

/-- Input model `Video` (src/ytm/models/video.py). -/
structure Video where
  video_id : String
  title : Option String := none
  description : Option String := none
  channel_id : Option String := none
  channel_title : Option String := none
  duration_seconds : Option Int := none
  thumbnail_url : Option String := none
  published_at : Option Time := none
  first_seen_at : Option Time := none
  last_updated_at : Option Time := none
  is_available : Bool := true
  deriving DecidableEq, Repr

/-- Input model `PlaylistItem` (src/ytm/models/video.py). -/
structure PlaylistItem where
  item_id : String
  playlist_id : String
  video_id : String
  position : Int
  added_at : Option Time := none
  first_seen_at : Option Time := none
  last_seen_at : Option Time := none
  removed_from_youtube_at : Option Time := none
  deriving DecidableEq, Repr

/-- Row of table `ytm.playlists` (schema in `_init_schema`). -/
structure PlaylistRow where
  playlist_id : String
  title : String
  description : String
  channel_id : Option String
  privacy_status : Option String
  item_count : Int
  published_at : Option Time
  first_seen_at : Time
  last_seen_at : Time
  deleted_from_youtube_at : Option Time
  deriving DecidableEq, Repr

/-- Row of table `ytm.videos` (schema in `_init_schema`). -/
structure VideoRow where
  video_id : String
  title : Option String
  description : Option String
  channel_id : Option String
  channel_title : Option String
  duration_seconds : Option Int
  thumbnail_url : Option String
  published_at : Option Time
  first_seen_at : Time
  last_updated_at : Time
  is_available : Bool
  deriving DecidableEq, Repr

/-- Row of table `ytm.playlist_items` (schema in `_init_schema`). -/
structure ItemRow where
  item_id : String
  playlist_id : String
  video_id : String
  position : Int
  added_at : Option Time
  first_seen_at : Time
  last_seen_at : Time
  removed_from_youtube_at : Option Time
  deriving DecidableEq, Repr

/-- The three tables of the attached `ytm` database. -/
structure DB where
  playlists : List PlaylistRow
  videos : List VideoRow
  playlist_items : List ItemRow
  deriving DecidableEq, Repr

def DB.empty : DB := ⟨[], [], []⟩

/-- Function `upsert_playlist` (database.py lines 95-152): if a row with the playlist
id exists, `UPDATE` overwrites every scalar column, sets `last_seen_at = now`
and clears `deleted_from_youtube_at`; otherwise `INSERT` a fresh row with
`first_seen_at = last_seen_at = now`. -/
def upsert_playlist (p : Playlist) (now : Time) (db : DB) : DB :=
  if db.playlists.any (fun r => r.playlist_id == p.playlist_id) then
    { db with playlists := db.playlists.map (fun r =>
        if r.playlist_id == p.playlist_id then
          { r with
              title := p.title
              description := p.description
              channel_id := p.channel_id
              privacy_status := p.privacy_status
              item_count := p.item_count
              published_at := p.published_at
              last_seen_at := now
              deleted_from_youtube_at := none }
        else r) }
  else
    { db with playlists := db.playlists ++
        [{ playlist_id := p.playlist_id
           title := p.title
           description := p.description
           channel_id := p.channel_id
           privacy_status := p.privacy_status
           item_count := p.item_count
           published_at := p.published_at
           first_seen_at := now
           last_seen_at := now
           deleted_from_youtube_at := none }] }

/-- SQL `COALESCE(a, b)`: the first non-NULL argument. -/
def coalesce {α : Type} (a b : Option α) : Option α :=
  match a with | some x => some x | none => b

/-- Function `upsert_video` (database.py lines 155-215): on an existing row each
optional column is set with `COALESCE(new, old)`, `last_updated_at = now`
and `is_available` is overwritten; otherwise `INSERT` a fresh row. -/
def upsert_video (v : Video) (now : Time) (db : DB) : DB :=
  if db.videos.any (fun r => r.video_id == v.video_id) then
    { db with videos := db.videos.map (fun r =>
        if r.video_id == v.video_id then
          { r with
              title := coalesce v.title r.title
              description := coalesce v.description r.description
              channel_id := coalesce v.channel_id r.channel_id
              channel_title := coalesce v.channel_title r.channel_title
              duration_seconds := coalesce v.duration_seconds r.duration_seconds
              thumbnail_url := coalesce v.thumbnail_url r.thumbnail_url
              published_at := coalesce v.published_at r.published_at
              last_updated_at := now
              is_available := v.is_available }
        else r) }
  else
    { db with videos := db.videos ++
        [{ video_id := v.video_id
           title := v.title
           description := v.description
           channel_id := v.channel_id
           channel_title := v.channel_title
           duration_seconds := v.duration_seconds
           thumbnail_url := v.thumbnail_url
           published_at := v.published_at
           first_seen_at := now
           last_updated_at := now
           is_available := v.is_available }] }

/-- Function `upsert_playlist_item` (database.py lines 218-256): on an existing row
only `position` is overwritten, `last_seen_at = now` and
`removed_from_youtube_at` is cleared; `playlist_id`, `video_id` and
`added_at` are not part of the `UPDATE`. Otherwise `INSERT` a fresh row. -/
def upsert_playlist_item (i : PlaylistItem) (now : Time) (db : DB) : DB :=
  if db.playlist_items.any (fun r => r.item_id == i.item_id) then
    { db with playlist_items := db.playlist_items.map (fun r =>
        if r.item_id == i.item_id then
          { r with
              position := i.position
              last_seen_at := now
              removed_from_youtube_at := none }
        else r) }
  else
    { db with playlist_items := db.playlist_items ++
        [{ item_id := i.item_id
           playlist_id := i.playlist_id
           video_id := i.video_id
           position := i.position
           added_at := i.added_at
           first_seen_at := now
           last_seen_at := now
           removed_from_youtube_at := none }] }

/-- Function `mark_removed_items` (database.py lines 259-282): `SELECT` the item ids
of the playlist's rows with `removed_from_youtube_at IS NULL`, then for each
selected id not in `current`, `UPDATE ... SET removed_from_youtube_at = now
WHERE item_id = ?` (the `UPDATE` matches on `item_id` alone). -/
def mark_removed_items (pid : String) (current : List String) (now : Time) (db : DB) : DB :=
  let live := (db.playlist_items.filter
      (fun r => r.playlist_id == pid && r.removed_from_youtube_at.isNone)).map (·.item_id)
  let toMark := live.filter (fun x => !current.contains x)
  { db with playlist_items := db.playlist_items.map (fun r =>
      if toMark.contains r.item_id then { r with removed_from_youtube_at := some now } else r) }

/-- LEFT JOIN of one `playlist_items` row against `ytm.videos` on
`pi.video_id = v.video_id`: one output row per matching video row, or a
single row with NULL video columns when none matches. -/
def leftJoinVideo (db : DB) (r : ItemRow) : List (ItemRow × Option VideoRow) :=
  match db.videos.filter (fun v => v.video_id == r.video_id) with
  | [] => [(r, none)]
  | vs => vs.map (fun v => (r, some v))

/-- Function `get_playlist_items` (database.py lines 311-348): LEFT JOIN with the
videos table, `WHERE pi.playlist_id = ?` plus, unless `include_removed`,
`AND pi.removed_from_youtube_at IS NULL`, `ORDER BY pi.position`. The WHERE
clause only reads `pi` columns, so filtering before the join is equivalent;
SQL leaves the order of position ties unspecified, here insertion sort picks
one such order. -/
def get_playlist_items (db : DB) (pid : String) (include_removed : Bool) :
    List (ItemRow × Option VideoRow) :=
  let rows := db.playlist_items.filter (fun r =>
      r.playlist_id == pid && (include_removed || r.removed_from_youtube_at.isNone))
  List.insertionSort (fun a b => a.1.position ≤ b.1.position) (rows.flatMap (leftJoinVideo db))

/-! ### Versions and the snapshot diff (`get_snapshot_changes`)

A DuckLake snapshot is a committed state of all three tables; `AT (VERSION
=> v)` reads the tables as of snapshot `v`. A `Store` is the list of
committed snapshots, indexed by version number. -/

structure Store where
  versions : List DB
  deriving DecidableEq, Repr

structure SnapshotChanges where
  playlists_added : Finset String
  playlists_removed : Finset String
  items_added : Finset String
  items_removed : Finset String
  deriving DecidableEq

/-- Query `SELECT playlist_id FROM ytm.playlists AT (VERSION => v)` collected into
a Python `set` — note: no filter on `deleted_from_youtube_at`. -/
def playlistIds (db : DB) : Finset String := (db.playlists.map (·.playlist_id)).toFinset

/-- Query `SELECT item_id FROM ytm.playlist_items AT (VERSION => v)` collected into
a Python `set` — note: no filter on `removed_from_youtube_at`. -/
def itemIds (db : DB) : Finset String := (db.playlist_items.map (·.item_id)).toFinset

/-- Function `get_snapshot_changes` (database.py lines 363-408): set differences of the
raw identity sets of the two snapshots; querying a missing version is a
database error (`none`). -/
def get_snapshot_changes (s : Store) (v1 v2 : Nat) : Option SnapshotChanges :=
  match s.versions[v1]?, s.versions[v2]? with
  | some db1, some db2 =>
      some { playlists_added := playlistIds db2 \ playlistIds db1
             playlists_removed := playlistIds db1 \ playlistIds db2
             items_added := itemIds db2 \ itemIds db1
             items_removed := itemIds db1 \ itemIds db2 }
  | _, _ => none

/-- Spec-worded diff, for comparison with `get_snapshot_changes`: the spec
says the identity set at each version is the store's *live* (not
soft-removed) view. -/
def livePlaylistIds (db : DB) : Finset String :=
  ((db.playlists.filter (·.deleted_from_youtube_at.isNone)).map (·.playlist_id)).toFinset

/-- Spec-worded live identity set for memberships (see `livePlaylistIds`). -/
def liveItemIds (db : DB) : Finset String :=
  ((db.playlist_items.filter (·.removed_from_youtube_at.isNone)).map (·.item_id)).toFinset

/-- Spec-worded diff over live identity sets, for comparison with the code's
`get_snapshot_changes`. -/
def spec_diff_live (s : Store) (v1 v2 : Nat) : Option SnapshotChanges :=
  match s.versions[v1]?, s.versions[v2]? with
  | some db1, some db2 =>
      some { playlists_added := livePlaylistIds db2 \ livePlaylistIds db1
             playlists_removed := livePlaylistIds db1 \ livePlaylistIds db2
             items_added := liveItemIds db2 \ liveItemIds db1
             items_removed := liveItemIds db1 \ liveItemIds db2 }
  | _, _ => none

/-! ### Transactions (`begin_transaction` / `commit_transaction` /
`rollback_transaction`, database.py lines 419-434)

The write operations issued between `BEGIN TRANSACTION` and
`COMMIT`/`ROLLBACK` are exactly the four mutators above. A session holds the
committed snapshot list plus the open transaction's working state, if any.
`COMMIT` publishes the working state as one new snapshot; `ROLLBACK`
discards it; a write outside an explicit transaction autocommits its own
snapshot; `BEGIN` inside an open transaction, or `COMMIT`/`ROLLBACK` with
none open, is a database error. -/

inductive WriteOp where
  | wPlaylist (p : Playlist) (now : Time)
  | wVideo (v : Video) (now : Time)
  | wItem (i : PlaylistItem) (now : Time)
  | wMark (pid : String) (current : List String) (now : Time)
  deriving DecidableEq, Repr

def applyOp (db : DB) : WriteOp → DB
  | .wPlaylist p now => upsert_playlist p now db
  | .wVideo v now => upsert_video v now db
  | .wItem i now => upsert_playlist_item i now db
  | .wMark pid current now => mark_removed_items pid current now db

def applyOps (db : DB) (ops : List WriteOp) : DB := ops.foldl applyOp db

inductive Cmd where
  | beginTxn
  | commitTxn
  | rollbackTxn
  | write (op : WriteOp)
  deriving DecidableEq, Repr

structure Session where
  committed : List DB
  txn : Option DB
  deriving DecidableEq, Repr

def Session.latestDB (s : Session) : DB := s.committed.getLastD DB.empty

def execCmd (s : Session) : Cmd → Option Session
  | .beginTxn =>
      match s.txn with
      | none => some ⟨s.committed, some s.latestDB⟩
      | some _ => none
  | .commitTxn =>
      match s.txn with
      | some w => some ⟨s.committed ++ [w], none⟩
      | none => none
  | .rollbackTxn =>
      match s.txn with
      | some _ => some ⟨s.committed, none⟩
      | none => none
  | .write op =>
      match s.txn with
      | some w => some ⟨s.committed, some (applyOp w op)⟩
      | none => some ⟨s.committed ++ [applyOp s.latestDB op], none⟩

def execCmds (s : Session) : List Cmd → Option Session
  | [] => some s
  | c :: cs =>
      match execCmd s c with
      | some s2 => execCmds s2 cs
      | none => none

/-! ### The backup run (backup.py lines 42-106)

One fetched collection is the complete current state handed over by the
source collaborator: the playlist metadata plus the `(video, item)` pairs of
its members. The run upserts the playlist, upserts each pair, then marks
removed items against the set of item ids just seen, for each collection in
turn, all inside one transaction. -/

structure CollectionFetch where
  playlist : Playlist
  entries : List (Video × PlaylistItem)
  deriving DecidableEq, Repr

def collectionOps (c : CollectionFetch) (now : Time) : List WriteOp :=
  .wPlaylist c.playlist now ::
    (c.entries.flatMap (fun e => [.wVideo e.1 now, .wItem e.2 now]) ++
      [.wMark c.playlist.playlist_id (c.entries.map (·.2.item_id)) now])

def backupOps (fetched : List CollectionFetch) (now : Time) : List WriteOp :=
  fetched.flatMap (fun c => collectionOps c now)

/-- The effect of a committed backup run on the table state. -/
def applyBackup (fetched : List CollectionFetch) (now : Time) (db : DB) : DB :=
  applyOps db (backupOps fetched now)

/-! ### Retention selector (`get_items_older_than`, browser.py lines 189-226)

The rows handed in are dicts; the two timestamp keys may hold a datetime, a
string, or be absent. A `datetime` is a wall-clock value (seconds) plus an
optional fixed utcoffset (`none` = naive; the store and `datetime.now()`
produce naive values, `fromisoformat` can produce either). Python compares
two naive datetimes by wall clock, two aware datetimes by instant
(wall − utcoffset), and raises `TypeError` on a naive/aware pair. A string
is kept abstract as its Python truthiness (non-emptiness) together with its
`datetime.fromisoformat` parse result (`none` = `ValueError`).

The loop (browser.py lines 204-224) carries `cutoff` as mutable state: on
the first timezone-aware timestamp it rebinds
`cutoff = cutoff.replace(tzinfo=timezone.utc)` — same wall clock, now
tagged UTC — and the rebinding persists for all later records, so a later
naive record raises `TypeError`, which propagates out of the function
(modelled as `none`). -/

structure PyDatetime where
  wall : Int
  tz : Option Int
  deriving DecidableEq, Repr

/-- Python `datetime.__lt__`: wall-clock order for two naive values, instant
order (wall − utcoffset) for two aware values, `TypeError` (`none`) for a
mixed pair. -/
def pyLt (a b : PyDatetime) : Option Bool :=
  match a.tz, b.tz with
  | none, none => some (decide (a.wall < b.wall))
  | some o1, some o2 => some (decide (a.wall - o1 < b.wall - o2))
  | _, _ => none

inductive TsVal where
  | dt (d : PyDatetime)
  | str (truthy : Bool) (parsed : Option PyDatetime)
  deriving DecidableEq, Repr

/-- Python truthiness of a timestamp value (`None` is handled separately). -/
def TsVal.truthyVal : TsVal → Bool
  | .dt _ => true
  | .str b _ => b

/-- The datetime a value yields once past the `None` check: a datetime
directly, a string via `fromisoformat` (`none` on `ValueError`). -/
def TsVal.parseVal : TsVal → Option PyDatetime
  | .dt d => some d
  | .str _ p => p

/-- Projection of a playlist-item dict to the keys the retention selector
reads. -/
structure RetentionItem where
  item_id : String
  position : Int := 0
  added_at : Option TsVal := none
  first_seen_at : Option TsVal := none
  deriving DecidableEq, Repr

/-- Expression `item.get("added_at") or item.get("first_seen_at")`: Python `or` falls
through on falsy values (`None`, `""`). -/
def effectiveRaw (it : RetentionItem) : Option TsVal :=
  match it.added_at with
  | some v => if v.truthyVal then some v else it.first_seen_at
  | none => it.first_seen_at

/-- The loop body's resolution of one record to a comparable datetime:
`None` → skip, string that fails to parse → skip. -/
def resolveTs (it : RetentionItem) : Option PyDatetime :=
  (effectiveRaw it).bind TsVal.parseVal

/-- One step per record, threading the mutable `cutoff`:
resolve the timestamp (skipping `None`/unparsable), rebind the cutoff to
UTC when the timestamp is aware (browser.py lines 218-221), then compare —
a `TypeError` (naive/aware pair) aborts the whole call (`none`). -/
def items_older_go (cutoff : PyDatetime) : List RetentionItem → Option (List RetentionItem)
  | [] => some []
  | it :: rest =>
      match resolveTs it with
      | none => items_older_go cutoff rest
      | some d =>
          let cutoff2 := if d.tz.isSome then { cutoff with tz := some 0 } else cutoff
          match pyLt d cutoff2 with
          | none => none
          | some true => (items_older_go cutoff2 rest).map (fun l => it :: l)
          | some false => items_older_go cutoff2 rest

/-- Function `get_items_older_than(items, days)`:
`cutoff = datetime.now() - timedelta(days=days)` (naive), then the
accumulation loop; `none` = the call raises `TypeError`. -/
def get_items_older_than (items : List RetentionItem) (days : Nat) (now : Time) :
    Option (List RetentionItem) :=
  items_older_go ⟨now - (days : Int) * 86400, none⟩ items

/-- Characterization predicate for the retention selection on naive
timestamps: a record is kept iff its resolved effective timestamp exists and
its wall clock is strictly before the cutoff. -/
def retentionKeep (cutoff : Time) (it : RetentionItem) : Bool :=
  match resolveTs it with
  | some d => decide (d.wall < cutoff)
  | none => false

/-- Test that a record's resolvable effective timestamp, if any, is
timezone-naive — true of every record the store produces. -/
def naiveTs (it : RetentionItem) : Bool :=
  match resolveTs it with
  | some d => d.tz.isNone
  | none => true

/-! ### Prune command (prune.py lines 17-35 and 38-114, modelled up to the
point where the selection is settled; the preview/confirm/browser stage that
follows performs no database access) -/

/-- Function `parse_duration` (prune.py lines 17-35): regex
`^(\d+)([dwm])$` against the lowercased input; `d` = days, `w` = weeks ×7,
`m` = months ×30; no match raises `typer.BadParameter` (`none` here). -/
def parse_duration (s : String) : Option Nat :=
  let cs := s.toList.map Char.toLower
  match cs.getLast? with
  | none => none
  | some u =>
      let ds := cs.dropLast
      if ds.isEmpty || !ds.all Char.isDigit then none
      else
        let value := ds.foldl (fun n c => n * 10 + (c.toNat - 48)) 0
        if u == 'd' then some value
        else if u == 'w' then some (value * 7)
        else if u == 'm' then some (value * 30)
        else none

def WATCH_LATER_PLAYLIST_ID : String := "WL"

/-- The projection `toRetentionItem` of a joined store row to the dict keys
the selection stage reads (the stored timestamps are datetimes). -/
def toRetentionItem (x : ItemRow × Option VideoRow) : RetentionItem :=
  { item_id := x.1.item_id
    position := x.1.position
    added_at := x.1.added_at.map (fun t => .dt ⟨t, none⟩)
    first_seen_at := some (.dt ⟨x.1.first_seen_at, none⟩) }

inductive PruneEffect where
  | storeRead
  deriving DecidableEq, Repr

inductive PruneOutcome where
  | errInvalidPlaylist
  | errConflictingOptions
  | errNoItems
  | errBadDuration
  | noMatches
  | proceed (selected : List RetentionItem)
  | raised
  deriving DecidableEq, Repr

structure PruneArgs where
  playlist_id : String
  older_than : Option String := none
  count : Option Nat := none
  all_items : Bool := false
  deriving DecidableEq, Repr

/-- Function `prune_watch_later` (prune.py lines 38-114) up to the settled selection,
with the trace of store accesses it performs. In source order: the `WL`
check, the conflicting-options check, the `90d` default, then
`database.get_playlist_items(WATCH_LATER_PLAYLIST_ID)` (a store read), the
empty-store exit, and only then the selection branch — which for
`--older-than` calls `parse_duration`, raising `typer.BadParameter` on a
malformed input. -/
def prune_watch_later (a : PruneArgs) (db : DB) (now : Time) :
    List PruneEffect × PruneOutcome :=
  if (a.playlist_id.toList.map Char.toUpper) ≠ "WL".toList then
    ([], .errInvalidPlaylist)
  else
    let optionsSet := (if a.older_than.isSome then 1 else 0) +
      ((if a.count.isSome then 1 else 0) + (if a.all_items then 1 else 0))
    if optionsSet > 1 then ([], .errConflictingOptions)
    else
      let older_than := if optionsSet == 0 then some "90d" else a.older_than
      let items := get_playlist_items db WATCH_LATER_PLAYLIST_ID false
      if items.isEmpty then ([.storeRead], .errNoItems)
      else
        let ritems := items.map toRetentionItem
        if a.all_items then ([.storeRead], .proceed ritems)
        else
          match a.count with
          | some n =>
              ([.storeRead], .proceed
                ((List.insertionSort (fun x y => y.position ≤ x.position) ritems).take n))
          | none =>
              match older_than with
              | none => ([.storeRead], .errBadDuration)
              | some s =>
                  match parse_duration s with
                  | none => ([.storeRead], .errBadDuration)
                  | some days =>
                      match get_items_older_than ritems days now with
                      | none => ([.storeRead], .raised)
                      | some selected =>
                          if selected.isEmpty then ([.storeRead], .noMatches)
                          else ([.storeRead], .proceed selected)

/-! ### Concrete fixtures used by witnesses and counterexamples -/

def prow0 : PlaylistRow := ⟨"P", "t", "", none, none, 0, none, 1, 1, none⟩

def vrow0 : VideoRow := ⟨"V", some "vt", none, none, none, none, none, none, 1, 1, true⟩

def irowLive : ItemRow := ⟨"I", "P", "V", 0, none, 1, 1, none⟩

def irowOld : ItemRow := ⟨"I", "P", "V", 0, some 3, 1, 1, some 2⟩

def dbFull : DB := ⟨[prow0], [vrow0], [irowLive]⟩

def dbRem : DB := ⟨[prow0], [], [irowOld]⟩

def plP : Playlist := { playlist_id := "P", title := "t2" }

def vidV : Video := { video_id := "V", description := some "d" }

def itmI : PlaylistItem :=
  { item_id := "I", playlist_id := "P", video_id := "V", position := 1, added_at := some 5 }

def qpl : Playlist := { playlist_id := "Q", title := "q" }

def dbDel : DB :=
  ⟨[{ prow0 with deleted_from_youtube_at := some 1 }], [],
    [{ irowLive with removed_from_youtube_at := some 1 }]⟩

def storeDel : Store := ⟨[DB.empty, dbDel]⟩

def vidA : Video := { video_id := "V", title := some "orig" }

def vidB : Video := { video_id := "V", duration_seconds := some 42 }

def rowA : VideoRow := ⟨"V", some "orig", none, none, none, none, none, none, 1, 1, true⟩

def wlItem : ItemRow := ⟨"WLI", "WL", "V", 0, none, 1, 1, none⟩

def dbWL : DB := ⟨[], [], [wlItem]⟩

def retA : RetentionItem := { item_id := "a", added_at := some (.dt ⟨-1, none⟩) }

def retB : RetentionItem := { item_id := "b", added_at := some (.dt ⟨0, none⟩) }

def retC : RetentionItem := { item_id := "c", added_at := some (.dt ⟨86400, none⟩) }

def retAware : RetentionItem :=
  { item_id := "z", added_at := some (.str true (some ⟨1, some 0⟩)) }

/-! ### Helper lemmas -/

theorem upsert_video_playlists_eq (v : Video) (now : Time) (db : DB) :
    (upsert_video v now db).playlists = db.playlists := by
  unfold upsert_video; split <;> rfl

theorem upsert_playlist_item_playlists_eq (i : PlaylistItem) (now : Time) (db : DB) :
    (upsert_playlist_item i now db).playlists = db.playlists := by
  unfold upsert_playlist_item; split <;> rfl

theorem mark_removed_items_playlists_eq (pid : String) (current : List String) (now : Time)
    (db : DB) : (mark_removed_items pid current now db).playlists = db.playlists := rfl

theorem upsert_playlist_mem_other (p : Playlist) (now : Time) (db : DB) (r : PlaylistRow)
    (hr : r ∈ db.playlists) (hne : p.playlist_id ≠ r.playlist_id) :
    r ∈ (upsert_playlist p now db).playlists := by
  unfold upsert_playlist
  split
  · have : (fun r0 : PlaylistRow =>
        if r0.playlist_id == p.playlist_id then
          { r0 with
              title := p.title
              description := p.description
              channel_id := p.channel_id
              privacy_status := p.privacy_status
              item_count := p.item_count
              published_at := p.published_at
              last_seen_at := now
              deleted_from_youtube_at := none }
        else r0) r = r := by
      simp only [beq_iff_eq]
      rw [if_neg (fun h => hne h.symm)]
    exact List.mem_map.mpr ⟨r, hr, this⟩
  · exact List.mem_append.mpr (Or.inl hr)

theorem mem_leftJoinVideo_fst (db : DB) (rr : ItemRow) (x : ItemRow × Option VideoRow)
    (hx : x ∈ leftJoinVideo db rr) : x.1 = rr := by
  unfold leftJoinVideo at hx
  split at hx
  · simp at hx; simp [hx]
  · obtain ⟨v, _, hv⟩ := List.mem_map.mp hx
    simp [← hv]

theorem leftJoinVideo_self_mem (db : DB) (rr : ItemRow) :
    ∃ o, (rr, o) ∈ leftJoinVideo db rr := by
  unfold leftJoinVideo
  cases h : List.filter (fun v => v.video_id == rr.video_id) db.videos with
  | nil => exact ⟨none, by simp⟩
  | cons v vs => exact ⟨some v, by simp⟩

theorem execCmds_write_rollback (ops : List WriteOp) (committed : List DB) (w : DB) :
    execCmds ⟨committed, some w⟩ (ops.map Cmd.write ++ [Cmd.rollbackTxn]) =
      some ⟨committed, none⟩ := by
  induction ops generalizing w with
  | nil => rfl
  | cons op rest ih => simpa [execCmds, execCmd] using ih (applyOp w op)

/-! ### Claims -/

/-- C1: for every committed history and every sequence of upserts and
removal markings performed between `begin_transaction` and a
`rollback_transaction`, the session afterwards equals the session before the
run began: the committed snapshot list — in particular its latest version —
is exactly the pre-run one, with no trace of the run's writes. -/
theorem rollback_leaves_store_unchanged (committed : List DB) (ops : List WriteOp) :
    execCmds ⟨committed, none⟩ (Cmd.beginTxn :: (ops.map Cmd.write ++ [Cmd.rollbackTxn])) =
      some ⟨committed, none⟩ := by
  simpa [execCmds, execCmd] using
    execCmds_write_rollback ops committed (Session.latestDB ⟨committed, none⟩)

/-- C2 counterexample: the claim says the identity set taken at each version
is the store's live (not soft-removed) view; on a store whose version 1
holds one soft-removed playlist and one soft-removed membership,
`get_snapshot_changes` (which never filters on the removal columns) differs
from the spec-worded live-view diff. -/
theorem get_snapshot_changes_ne_live_diff :
    get_snapshot_changes storeDel 0 1 ≠ spec_diff_live storeDel 0 1 := by decide

/-- C2 (amended): for every pair of existing versions `a` and `b`,
`get_snapshot_changes` returns, per entity type, `added` = identities with a
row at `b` but none at `a` and `removed` = identities with a row at `a` but
none at `b`, where the identity set at each version is the set of ALL rows
present in the table at that version, soft-removed rows included. -/
theorem get_snapshot_changes_raw_sets (s : Store) (a b : Nat) (dba dbb : DB)
    (ha : s.versions[a]? = some dba) (hb : s.versions[b]? = some dbb) :
    ∃ c, get_snapshot_changes s a b = some c ∧
      (∀ x, x ∈ c.playlists_added ↔
        (∃ r ∈ dbb.playlists, r.playlist_id = x) ∧ ¬ ∃ r ∈ dba.playlists, r.playlist_id = x) ∧
      (∀ x, x ∈ c.playlists_removed ↔
        (∃ r ∈ dba.playlists, r.playlist_id = x) ∧ ¬ ∃ r ∈ dbb.playlists, r.playlist_id = x) ∧
      (∀ x, x ∈ c.items_added ↔
        (∃ r ∈ dbb.playlist_items, r.item_id = x) ∧
          ¬ ∃ r ∈ dba.playlist_items, r.item_id = x) ∧
      (∀ x, x ∈ c.items_removed ↔
        (∃ r ∈ dba.playlist_items, r.item_id = x) ∧
          ¬ ∃ r ∈ dbb.playlist_items, r.item_id = x) := by
  unfold get_snapshot_changes
  rw [ha, hb]
  refine ⟨_, rfl, ?_, ?_, ?_, ?_⟩ <;> intro x <;>
    simp [playlistIds, itemIds, List.mem_toFinset, List.mem_map, Finset.mem_sdiff]

theorem get_snapshot_changes_raw_sets_witness :
    storeDel.versions[0]? = some DB.empty ∧ storeDel.versions[1]? = some dbDel ∧
    ∃ c, get_snapshot_changes storeDel 0 1 = some c ∧
      ("P" ∈ c.playlists_added ↔
        (∃ r ∈ dbDel.playlists, r.playlist_id = "P") ∧
          ¬ ∃ r ∈ DB.empty.playlists, r.playlist_id = "P") :=
  ⟨rfl, rfl, by
    obtain ⟨c, hc, h1, _, _, _⟩ :=
      get_snapshot_changes_raw_sets storeDel 0 1 DB.empty dbDel rfl rfl
    exact ⟨c, hc, h1 "P"⟩⟩

/-- C3: after `mark_removed_items` for a collection with a complete snapshot
`current`, every membership row of that collection that was live and whose
item id is not in `current` has its removal timestamp set to `now` (the row
at the same index is the old row with `removed_from_youtube_at = some now`);
that marked row is excluded from the default `get_playlist_items` listing of
the collection and present in the `include_removed := true` listing. -/
theorem mark_removed_sets_now_and_listing (pid : String) (current : List String)
    (now : Time) (db : DB) (k : Nat) (r : ItemRow)
    (hk : db.playlist_items[k]? = some r)
    (hpid : r.playlist_id = pid)
    (hlive : r.removed_from_youtube_at = none)
    (habs : r.item_id ∉ current) :
    (mark_removed_items pid current now db).playlist_items[k]? =
      some { r with removed_from_youtube_at := some now } ∧
    (∀ x ∈ get_playlist_items (mark_removed_items pid current now db) pid false,
      x.1 ≠ { r with removed_from_youtube_at := some now }) ∧
    (∃ x ∈ get_playlist_items (mark_removed_items pid current now db) pid true,
      x.1 = { r with removed_from_youtube_at := some now }) := by
  have hmem : r ∈ db.playlist_items := List.getElem?_mem hk
  have hcontains :
      (((db.playlist_items.filter
          (fun r0 => r0.playlist_id == pid && r0.removed_from_youtube_at.isNone)).map
            (·.item_id)).filter (fun x => !current.contains x)).contains r.item_id = true := by
    simp only [List.contains, List.elem_iff]
    refine List.mem_filter.mpr
      ⟨List.mem_map.mpr ⟨r, List.mem_filter.mpr ⟨hmem, ?_⟩, rfl⟩, ?_⟩
    · simp [hpid, hlive]
    · simp [List.contains, List.elem_iff, habs]
  have h1 : (mark_removed_items pid current now db).playlist_items[k]? =
      some { r with removed_from_youtube_at := some now } := by
    show (db.playlist_items.map _)[k]? = _
    rw [List.getElem?_map, hk]
    simp only [Option.map_some']
    rw [if_pos hcontains]
  refine ⟨h1, ?_, ?_⟩
  · intro x hx heq
    obtain ⟨rr, hrr, hx2⟩ :=
      List.mem_flatMap.mp ((List.mem_insertionSort _).mp hx)
    have hfst := mem_leftJoinVideo_fst _ rr x hx2
    have hpred := (List.mem_filter.mp hrr).2
    simp only [Bool.false_or, Bool.and_eq_true] at hpred
    have : rr.removed_from_youtube_at.isNone = true := hpred.2
    rw [hfst] at heq
    rw [heq] at this
    simp at this
  · have hmem' : ({ r with removed_from_youtube_at := some now } : ItemRow) ∈
        (mark_removed_items pid current now db).playlist_items := List.getElem?_mem h1
    obtain ⟨o, ho⟩ :=
      leftJoinVideo_self_mem (mark_removed_items pid current now db)
        { r with removed_from_youtube_at := some now }
    refine ⟨({ r with removed_from_youtube_at := some now }, o),
      (List.mem_insertionSort _).mpr (List.mem_flatMap.mpr
        ⟨{ r with removed_from_youtube_at := some now },
          List.mem_filter.mpr ⟨hmem', by simp [hpid]⟩, ho⟩), rfl⟩

theorem mark_removed_sets_now_and_listing_witness :
    dbFull.playlist_items[0]? = some irowLive ∧ irowLive.playlist_id = "P" ∧
    irowLive.removed_from_youtube_at = none ∧ irowLive.item_id ∉ ([] : List String) ∧
    ((mark_removed_items "P" [] 7 dbFull).playlist_items[0]? =
      some { irowLive with removed_from_youtube_at := some 7 } ∧
    (∀ x ∈ get_playlist_items (mark_removed_items "P" [] 7 dbFull) "P" false,
      x.1 ≠ { irowLive with removed_from_youtube_at := some 7 }) ∧
    (∃ x ∈ get_playlist_items (mark_removed_items "P" [] 7 dbFull) "P" true,
      x.1 = { irowLive with removed_from_youtube_at := some 7 })) :=
  ⟨rfl, rfl, rfl, by decide,
    mark_removed_sets_now_and_listing "P" [] 7 dbFull 0 irowLive rfl rfl rfl (by decide)⟩

theorem coalesce_isSome {α : Type} {a : Option α} (b : Option α) (h : a.isSome = true) :
    coalesce a b = a := by cases a <;> simp_all [coalesce]

theorem coalesce_none {α : Type} {a : Option α} (b : Option α) (h : a = none) :
    coalesce a b = b := by subst h; rfl

theorem applyOps_playlists_mem (ops : List WriteOp) (db : DB) (r : PlaylistRow)
    (hr : r ∈ db.playlists)
    (hops : ∀ p t, WriteOp.wPlaylist p t ∈ ops → p.playlist_id ≠ r.playlist_id) :
    r ∈ (applyOps db ops).playlists := by
  induction ops generalizing db with
  | nil => exact hr
  | cons op rest ih =>
      have hstep : r ∈ (applyOp db op).playlists := by
        cases op with
        | wPlaylist p t =>
            exact upsert_playlist_mem_other p t db r hr (hops p t (by simp))
        | wVideo v t =>
            show r ∈ (upsert_video v t db).playlists
            rw [upsert_video_playlists_eq]; exact hr
        | wItem i t =>
            show r ∈ (upsert_playlist_item i t db).playlists
            rw [upsert_playlist_item_playlists_eq]; exact hr
        | wMark pid cur t =>
            show r ∈ (mark_removed_items pid cur t db).playlists
            rw [mark_removed_items_playlists_eq]; exact hr
      exact ih (applyOp db op) hstep (fun p t h => hops p t (by simp [h]))

theorem wPlaylist_mem_backupOps (fetched : List CollectionFetch) (now t : Time)
    (p : Playlist) (h : WriteOp.wPlaylist p t ∈ backupOps fetched now) :
    ∃ c ∈ fetched, c.playlist = p := by
  obtain ⟨c, hc, hop⟩ := List.mem_flatMap.mp h
  refine ⟨c, hc, ?_⟩
  unfold collectionOps at hop
  rcases List.mem_cons.mp hop with h1 | h2
  · cases h1; rfl
  · exfalso
    rcases List.mem_append.mp h2 with h3 | h4
    · obtain ⟨e, _, h5⟩ := List.mem_flatMap.mp h3
      simp at h5
    · simp at h4

/-- C4 counterexample: a store holding the previously observed collection
`P`; a committed backup run whose source reports only the different
collection `Q` (so it no longer reports `P`). Afterwards `P`'s removal
timestamp `deleted_from_youtube_at` is still `none`, not a non-null time —
the run never marks a disappeared collection as removed upstream. -/
theorem backup_absent_playlist_unmarked_cex :
    ((applyBackup [⟨qpl, []⟩] 10 dbRem).playlists.map
      (fun r => (r.playlist_id, r.deleted_from_youtube_at))) =
      [("P", none), ("Q", none)] := by decide

/-- C4 (amended): a backup run contains no operation that sets a
collection's `deleted_from_youtube_at`: every playlist row whose collection
the source does not report passes through the whole run completely
unchanged — in particular its removal timestamp is never set to a non-null
time, it merely stops being re-observed. -/
theorem backup_leaves_unreported_playlists_unchanged (fetched : List CollectionFetch)
    (now : Time) (db : DB) (r : PlaylistRow)
    (hr : r ∈ db.playlists)
    (habs : ∀ c ∈ fetched, c.playlist.playlist_id ≠ r.playlist_id) :
    r ∈ (applyBackup fetched now db).playlists := by
  refine applyOps_playlists_mem _ db r hr ?_
  intro p t hp
  obtain ⟨c, hc, hcp⟩ := wPlaylist_mem_backupOps fetched now t p hp
  rw [← hcp]
  exact habs c hc

theorem backup_leaves_unreported_playlists_unchanged_witness :
    prow0 ∈ dbRem.playlists ∧
    (∀ c ∈ [(⟨qpl, []⟩ : CollectionFetch)], c.playlist.playlist_id ≠ prow0.playlist_id) ∧
    prow0 ∈ (applyBackup [⟨qpl, []⟩] 10 dbRem).playlists :=
  ⟨by decide, by decide,
    backup_leaves_unreported_playlists_unchanged [⟨qpl, []⟩] 10 dbRem prow0
      (by decide) (by decide)⟩

/-- C5 counterexample: a Membership row whose stored `added_at` is `some 3`
is upserted with a snapshot carrying `added_at = some 5`; the claim says
every scalar field is overwritten unconditionally with the newly observed
value, but the stored row afterwards still has `added_at = some 3` (the
UPDATE only sets `position`, `last_seen_at` and clears the removal mark). -/
theorem upsert_item_keeps_added_at_cex :
    ((upsert_playlist_item itmI 10 dbRem).playlist_items.map (·.added_at)) = [some 3] ∧
    itmI.added_at = some 5 ∧ (some 3 : Option Time) ≠ (some 5 : Option Time) := by decide

/-- C5 (amended): for an already-existing Collection row the merge
overwrites all scalar fields unconditionally and clears the removal mark;
for an already-existing Membership row the merge overwrites only `position`
(while `playlist_id`, `video_id` and `added_at` keep their stored values)
and clears the removal mark — so in both cases an entity that was removed
and is present again has its removal timestamp equal to null afterwards. -/
theorem upsert_overwrites_and_clears_removal (p : Playlist) (i : PlaylistItem)
    (nowP nowI : Time) (db : DB) (rp : PlaylistRow) (ri : ItemRow)
    (hp : rp ∈ db.playlists) (hpid : rp.playlist_id = p.playlist_id)
    (hi : ri ∈ db.playlist_items) (hiid : ri.item_id = i.item_id) :
    ({ rp with
        title := p.title
        description := p.description
        channel_id := p.channel_id
        privacy_status := p.privacy_status
        item_count := p.item_count
        published_at := p.published_at
        last_seen_at := nowP
        deleted_from_youtube_at := none } ∈ (upsert_playlist p nowP db).playlists) ∧
    ({ ri with
        position := i.position
        last_seen_at := nowI
        removed_from_youtube_at := none } ∈
          (upsert_playlist_item i nowI db).playlist_items) := by
  constructor
  · unfold upsert_playlist
    rw [if_pos (List.any_eq_true.mpr ⟨rp, hp, by simp [hpid]⟩)]
    refine List.mem_map.mpr ⟨rp, hp, ?_⟩
    rw [show (rp.playlist_id == p.playlist_id) = true from by simp [hpid], if_pos rfl]
  · unfold upsert_playlist_item
    rw [if_pos (List.any_eq_true.mpr ⟨ri, hi, by simp [hiid]⟩)]
    refine List.mem_map.mpr ⟨ri, hi, ?_⟩
    rw [show (ri.item_id == i.item_id) = true from by simp [hiid], if_pos rfl]

theorem upsert_overwrites_and_clears_removal_witness :
    prow0 ∈ dbRem.playlists ∧ prow0.playlist_id = plP.playlist_id ∧
    irowOld ∈ dbRem.playlist_items ∧ irowOld.item_id = itmI.item_id ∧
    (({ prow0 with
        title := plP.title
        description := plP.description
        channel_id := plP.channel_id
        privacy_status := plP.privacy_status
        item_count := plP.item_count
        published_at := plP.published_at
        last_seen_at := (20 : Time)
        deleted_from_youtube_at := none } ∈ (upsert_playlist plP 20 dbRem).playlists) ∧
    ({ irowOld with
        position := itmI.position
        last_seen_at := (21 : Time)
        removed_from_youtube_at := none } ∈
          (upsert_playlist_item itmI 21 dbRem).playlist_items)) :=
  ⟨by decide, by decide, by decide, by decide,
    upsert_overwrites_and_clears_removal plP itmI 20 21 dbRem prow0 irowOld
      (by decide) (by decide) (by decide) (by decide)⟩

/-- C6: for every Item row that already exists at upsert time, each of the
seven optional columns is set to the newly observed value when that value is
non-null and is left at its stored value when it is null (`first_seen_at` is
untouched, `last_updated_at` becomes the mutation time), so an Item first
observed with only a title and later observed with only a duration ends up
holding both (witness below). -/
theorem upsert_video_partial_merge (v : Video) (now : Time) (db : DB) (r : VideoRow)
    (hr : r ∈ db.videos) (hid : r.video_id = v.video_id) :
    ∃ r' ∈ (upsert_video v now db).videos,
      r'.video_id = r.video_id ∧
      (v.title.isSome = true → r'.title = v.title) ∧
      (v.title = none → r'.title = r.title) ∧
      (v.description.isSome = true → r'.description = v.description) ∧
      (v.description = none → r'.description = r.description) ∧
      (v.channel_id.isSome = true → r'.channel_id = v.channel_id) ∧
      (v.channel_id = none → r'.channel_id = r.channel_id) ∧
      (v.channel_title.isSome = true → r'.channel_title = v.channel_title) ∧
      (v.channel_title = none → r'.channel_title = r.channel_title) ∧
      (v.duration_seconds.isSome = true → r'.duration_seconds = v.duration_seconds) ∧
      (v.duration_seconds = none → r'.duration_seconds = r.duration_seconds) ∧
      (v.thumbnail_url.isSome = true → r'.thumbnail_url = v.thumbnail_url) ∧
      (v.thumbnail_url = none → r'.thumbnail_url = r.thumbnail_url) ∧
      (v.published_at.isSome = true → r'.published_at = v.published_at) ∧
      (v.published_at = none → r'.published_at = r.published_at) ∧
      r'.first_seen_at = r.first_seen_at ∧ r'.last_updated_at = now := by
  unfold upsert_video
  rw [if_pos (List.any_eq_true.mpr ⟨r, hr, by simp [hid]⟩)]
  refine ⟨_, List.mem_map.mpr ⟨r, hr, rfl⟩, ?_⟩
  rw [show (r.video_id == v.video_id) = true from by simp [hid], if_pos rfl]
  exact ⟨rfl,
    fun h => coalesce_isSome _ h, fun h => coalesce_none _ h,
    fun h => coalesce_isSome _ h, fun h => coalesce_none _ h,
    fun h => coalesce_isSome _ h, fun h => coalesce_none _ h,
    fun h => coalesce_isSome _ h, fun h => coalesce_none _ h,
    fun h => coalesce_isSome _ h, fun h => coalesce_none _ h,
    fun h => coalesce_isSome _ h, fun h => coalesce_none _ h,
    fun h => coalesce_isSome _ h, fun h => coalesce_none _ h,
    rfl, rfl⟩

theorem upsert_video_partial_merge_witness :
    rowA ∈ (upsert_video vidA 1 DB.empty).videos ∧ rowA.video_id = vidB.video_id ∧
    ∃ r' ∈ (upsert_video vidB 2 (upsert_video vidA 1 DB.empty)).videos,
      r'.title = some "orig" ∧ r'.duration_seconds = some 42 := by
  refine ⟨by decide, by decide, ?_⟩
  obtain ⟨r', hmem, _, _, htitle, _, _, _, _, _, _, hdur, _, _, _, _, _, _, _⟩ :=
    upsert_video_partial_merge vidB 2 (upsert_video vidA 1 DB.empty) rowA
      (by decide) (by decide)
  exact ⟨r', hmem, by rw [htitle rfl]; rfl, by rw [hdur rfl]; rfl⟩


/-- C7: for every entity kind, upserting an already-existing row rewrites
the table by a per-row function that never touches `first_seen_at`, sets
`last_seen_at`/`last_updated_at` to the mutation time on every row whose
identity matches the upserted entity (whether or not any other field
changed), and leaves non-matching rows untouched. -/
theorem first_observed_immutable (p : Playlist) (v : Video) (i : PlaylistItem)
    (nowP nowV nowI : Time) (db : DB)
    (hp : db.playlists.any (fun r => r.playlist_id == p.playlist_id) = true)
    (hv : db.videos.any (fun r => r.video_id == v.video_id) = true)
    (hi : db.playlist_items.any (fun r => r.item_id == i.item_id) = true) :
    (∃ f, (upsert_playlist p nowP db).playlists = db.playlists.map f ∧
      ∀ r, (f r).first_seen_at = r.first_seen_at ∧
        (r.playlist_id = p.playlist_id → (f r).last_seen_at = nowP) ∧
        (r.playlist_id ≠ p.playlist_id → f r = r)) ∧
    (∃ g, (upsert_video v nowV db).videos = db.videos.map g ∧
      ∀ r, (g r).first_seen_at = r.first_seen_at ∧
        (r.video_id = v.video_id → (g r).last_updated_at = nowV) ∧
        (r.video_id ≠ v.video_id → g r = r)) ∧
    (∃ q, (upsert_playlist_item i nowI db).playlist_items = db.playlist_items.map q ∧
      ∀ r, (q r).first_seen_at = r.first_seen_at ∧
        (r.item_id = i.item_id → (q r).last_seen_at = nowI) ∧
        (r.item_id ≠ i.item_id → q r = r)) := by
  refine ⟨⟨_, by unfold upsert_playlist; rw [if_pos hp], fun r => ⟨?_, ?_, ?_⟩⟩,
          ⟨_, by unfold upsert_video; rw [if_pos hv], fun r => ⟨?_, ?_, ?_⟩⟩,
          ⟨_, by unfold upsert_playlist_item; rw [if_pos hi], fun r => ⟨?_, ?_, ?_⟩⟩⟩
  · cases hb : (r.playlist_id == p.playlist_id) <;> simp [hb]
  · intro h; simp [h]
  · intro h
    have hb : (r.playlist_id == p.playlist_id) = false := by simp [h]
    simp [hb]
  · cases hb : (r.video_id == v.video_id) <;> simp [hb]
  · intro h; simp [h]
  · intro h
    have hb : (r.video_id == v.video_id) = false := by simp [h]
    simp [hb]
  · cases hb : (r.item_id == i.item_id) <;> simp [hb]
  · intro h; simp [h]
  · intro h
    have hb : (r.item_id == i.item_id) = false := by simp [h]
    simp [hb]

theorem first_observed_immutable_witness :
    (dbFull.playlists.any (fun r => r.playlist_id == plP.playlist_id)) = true ∧
    (dbFull.videos.any (fun r => r.video_id == vidV.video_id)) = true ∧
    (dbFull.playlist_items.any (fun r => r.item_id == itmI.item_id)) = true ∧
    ∃ f, (upsert_playlist plP 30 dbFull).playlists = dbFull.playlists.map f ∧
      (f prow0).first_seen_at = prow0.first_seen_at ∧ (f prow0).last_seen_at = 30 := by
  refine ⟨by decide, by decide, by decide, ?_⟩
  obtain ⟨⟨f, hf, hall⟩, _, _⟩ :=
    first_observed_immutable plP vidV itmI 30 31 32 dbFull (by decide) (by decide) (by decide)
  exact ⟨f, hf, (hall prow0).1, (hall prow0).2.1 rfl⟩

/-- C8 counterexample: the claim says the selector returns exactly the
records strictly older than the threshold, excluding unresolvable ones
rather than raising an error. With a 30-day threshold and `now` at day 30
(naive cutoff wall clock 0), a record whose string timestamp parses
timezone-aware (UTC, wall 1) rebinds the cutoff to UTC; the next record, a
naive datetime at wall −1 — strictly older than the threshold, so the claim
requires it in the result — then hits a naive/aware comparison: the call
raises `TypeError` and returns no list at all. -/
theorem get_items_older_than_raises_cex :
    get_items_older_than [retAware, retA] 30 (30 * 86400) = none ∧
    resolveTs retA = some ⟨-1, none⟩ ∧
    ((-1 : Int) < 30 * 86400 - (30 : Int) * 86400) := by decide

/-- C8 (amended): on every list of records whose resolvable effective
timestamps are all timezone-naive — as every store-produced record is — the
selector returns (without error) exactly the records whose effective age
timestamp (the `added_at` value when present and truthy, otherwise
`first_seen_at`) resolves and is strictly earlier than `now - days`; a
record whose effective timestamp is missing or unparsable is excluded
rather than raising an error, and a record aged exactly `days` days is not
selected. -/
theorem get_items_older_than_naive_filter (items : List RetentionItem) (days : Nat)
    (now : Time) (h : items.all naiveTs = true) :
    get_items_older_than items days now =
      some (items.filter (retentionKeep (now - (days : Int) * 86400))) ∧
    (∀ it, retentionKeep (now - (days : Int) * 86400) it = true ↔
      ∃ d, resolveTs it = some d ∧ d.wall < now - (days : Int) * 86400) ∧
    (∀ it, resolveTs it = none →
      it ∉ items.filter (retentionKeep (now - (days : Int) * 86400))) ∧
    (∀ it d, resolveTs it = some d → d.wall = now - (days : Int) * 86400 →
      it ∉ items.filter (retentionKeep (now - (days : Int) * 86400))) := by
  have hfil : ∀ (cw : Int) (l : List RetentionItem), l.all naiveTs = true →
      items_older_go ⟨cw, none⟩ l = some (l.filter (retentionKeep cw)) := by
    intro cw l hl
    induction l with
    | nil => rfl
    | cons it rest ih =>
        rw [List.all_cons, Bool.and_eq_true] at hl
        unfold items_older_go
        cases hd : resolveTs it with
        | none => simp [List.filter_cons, retentionKeep, hd, ih hl.2]
        | some d =>
            have hn : d.tz = none := by
              have h1 := hl.1
              unfold naiveTs at h1
              rw [hd] at h1
              simpa using h1
            by_cases hlt : d.wall < cw <;>
              simp [pyLt, hn, hd, hlt, retentionKeep, List.filter_cons, ih hl.2]
  have hkeep : ∀ (it : RetentionItem) (c : Time),
      retentionKeep c it = true ↔ ∃ d, resolveTs it = some d ∧ d.wall < c := by
    intro it c
    unfold retentionKeep
    cases hd : resolveTs it <;> simp
  have hmain : get_items_older_than items days now =
      some (items.filter (retentionKeep (now - (days : Int) * 86400))) :=
    hfil _ items h
  refine ⟨hmain, fun it => hkeep it _, ?_, ?_⟩
  · intro it hnone hmem
    obtain ⟨d, hd, _⟩ := (hkeep it _).mp (List.mem_filter.mp hmem).2
    rw [hnone] at hd
    cases hd
  · intro it d hd hwall hmem
    obtain ⟨d2, hd2, hlt⟩ := (hkeep it _).mp (List.mem_filter.mp hmem).2
    rw [hd] at hd2
    cases hd2
    rw [hwall] at hlt
    exact absurd hlt (lt_irrefl _)

theorem get_items_older_than_naive_filter_witness :
    ([retA, retB, retC].all naiveTs) = true ∧
    get_items_older_than [retA, retB, retC] 30 (30 * 86400) = some [retA] := by
  refine ⟨by decide, ?_⟩
  rw [(get_items_older_than_naive_filter [retA, retB, retC] 30 (30 * 86400) (by decide)).1]
  decide

/-- C9 counterexample: the claim says a malformed retention threshold is
rejected before any access to the store; with the malformed threshold
`"bogus"` and a store holding one Watch Later item, the prune command's
effect trace at the moment of rejection already contains the store read of
the Watch Later items — the read precedes the validation. -/
theorem prune_reads_store_before_validation_cex :
    prune_watch_later ⟨"WL", some "bogus", none, false⟩ dbWL 5 =
      ([PruneEffect.storeRead], PruneOutcome.errBadDuration) ∧
    ([PruneEffect.storeRead] : List PruneEffect) ≠ [] := by decide

/-- C9 (amended): for every malformed retention threshold (when the store's
Watch Later listing is non-empty, which is the only way to reach the
threshold check), the prune operation terminates with the validation
failure, performing exactly one store read — the item listing that precedes
the validation — and no store mutation or browser action. -/
theorem prune_rejects_malformed_after_single_read (s : String) (db : DB) (now : Time)
    (hbad : parse_duration s = none)
    (hne : (get_playlist_items db WATCH_LATER_PLAYLIST_ID false).isEmpty = false) :
    prune_watch_later ⟨"WL", some s, none, false⟩ db now =
      ([PruneEffect.storeRead], PruneOutcome.errBadDuration) := by
  unfold prune_watch_later
  rw [if_neg (by decide : ¬ (("WL".toList.map Char.toUpper) ≠ "WL".toList))]
  rw [if_neg (by simp)]
  rw [if_neg (by simp [hne])]
  rw [if_neg (by simp)]
  simp [hbad]

theorem prune_rejects_malformed_after_single_read_witness :
    parse_duration "31x" = none ∧
    (get_playlist_items dbWL WATCH_LATER_PLAYLIST_ID false).isEmpty = false ∧
    prune_watch_later ⟨"WL", some "31x", none, false⟩ dbWL 6 =
      ([PruneEffect.storeRead], PruneOutcome.errBadDuration) :=
  ⟨by decide, by decide,
    prune_rejects_malformed_after_single_read "31x" dbWL 6 (by decide) (by decide)⟩

/-- C10: a removal-marking pass never touches a membership row whose removal
timestamp is already non-null (given the app-enforced uniqueness of item
ids): the row at the same index afterwards is the very same row, so an
earlier removal time is never overwritten by a later one. -/
theorem mark_removed_preserves_marked (pid : String) (current : List String) (now : Time)
    (db : DB) (k : Nat) (r : ItemRow) (t : Time)
    (hnd : (db.playlist_items.map (·.item_id)).Nodup)
    (hk : db.playlist_items[k]? = some r)
    (hrem : r.removed_from_youtube_at = some t) :
    (mark_removed_items pid current now db).playlist_items[k]? = some r := by
  have hmem : r ∈ db.playlist_items := List.getElem?_mem hk
  have hnc : ¬ ((((db.playlist_items.filter
      (fun r0 => r0.playlist_id == pid && r0.removed_from_youtube_at.isNone)).map
        (·.item_id)).filter (fun x => !current.contains x)).contains r.item_id = true) := by
    intro hb
    have hmem2 : r.item_id ∈ ((db.playlist_items.filter
        (fun r0 => r0.playlist_id == pid && r0.removed_from_youtube_at.isNone)).map
          (·.item_id)).filter (fun x => !current.contains x) := by
      simpa [List.contains, List.elem_iff] using hb
    obtain ⟨r2, hr2, heq⟩ := List.mem_map.mp (List.mem_filter.mp hmem2).1
    have hr2mem : r2 ∈ db.playlist_items := (List.mem_filter.mp hr2).1
    have hr2live := (List.mem_filter.mp hr2).2
    simp only [Bool.and_eq_true] at hr2live
    have : r2 = r := List.inj_on_of_nodup_map hnd hr2mem hmem heq
    rw [this, hrem] at hr2live
    simp at hr2live
  show (db.playlist_items.map _)[k]? = _
  rw [List.getElem?_map, hk]
  simp only [Option.map_some']
  rw [if_neg hnc]

theorem mark_removed_preserves_marked_witness :
    (dbRem.playlist_items.map (·.item_id)).Nodup ∧
    dbRem.playlist_items[0]? = some irowOld ∧
    irowOld.removed_from_youtube_at = some 2 ∧
    (mark_removed_items "P" ["X"] 9 dbRem).playlist_items[0]? = some irowOld :=
  ⟨by decide, rfl, rfl,
    mark_removed_preserves_marked "P" ["X"] 9 dbRem 0 irowOld 2 (by decide) rfl rfl⟩

end Ytm
